import Mathlib

/-!
# EBTA portal — verification of the enrollment / status / approval / check-in core

Shallow embedding of the core of `ebta_single_file_app.py` (a single-file
Flask + sqlite application) and proofs about it.

Modelling conventions:
* sqlite tables are Lean lists of structures; `SELECT ... WHERE x=? LIMIT 1`
  is `List.find?`; an `INSERT` appends; an `UPDATE ... WHERE id=?` maps over
  the list.  `AUTOINCREMENT` ids are explicit counters in the state.
* Python's `random.randint` draws are an explicit list of draws handed to the
  function; `secrets.token_urlsafe` is an explicit stream of token strings.
* Python float arithmetic in the fee computation (`subtotal * 0.05`,
  `round(...)`) is modelled by exact rational arithmetic with
  round-half-to-even, which is `round`'s tie-breaking rule.
* A handler returns a result value together with the state after
  `conn.commit()`; a branch that runs `conn.close()` without committing
  returns the state unchanged (sqlite rolls the open transaction back).
-/

namespace Ebta

/-! ## Pin utilities (source lines 620–632)

`gen_pin(existing)` loops `p = f"{random.randint(0,99999):05d}"` until
`p not in existing`.  We model the stream of `randint` draws as an explicit
list; an empty suffix of useful draws models non-termination (`none`). -/

/-- Python format `f"{n:05d}"` for `0 ≤ n ≤ 99999`: the five decimal digits of `n`,
zero-padded, most significant first. -/
def pinFmt (n : Nat) : String :=
  ⟨[Char.ofNat (48 + n / 10000 % 10), Char.ofNat (48 + n / 1000 % 10),
    Char.ofNat (48 + n / 100 % 10), Char.ofNat (48 + n / 10 % 10),
    Char.ofNat (48 + n % 10)]⟩

/-- Source `is_valid_pin(pin)`: `len(pin)==5 and pin.isdigit()`. -/
def is_valid_pin (pin : String) : Bool :=
  pin.length == 5 && pin.data.all Char.isDigit

/-- Source `gen_pin(existing)` with the sequence of `random.randint(0,99999)` draws
made explicit: the first draw whose formatted pin is not in `existing` is
returned; if every supplied draw collides the loop would continue (modelled
as `none`). -/
def gen_pin (draws : List Nat) (existing : List String) : Option String :=
  match draws with
  | [] => none
  | d :: rest => if pinFmt d ∈ existing then gen_pin rest existing else some (pinFmt d)

/-! ## FeeCalculator (source lines 2652–2675)

```python
def fee_for_grade(g):
    if g == 'G13': return 350
    if g == 'G12': return 250
    return 200
...
subtotal = per * count
if count >= 3:
    if grade == 'G13': discount = int(round(subtotal * 0.10))
    else:              discount = int(round(subtotal * 0.05))
else: discount = 0
total_due = subtotal - discount
```
`round` is Python's builtin: nearest integer, ties to even. -/

/-- Round a rational to the nearest integer, ties to even
(the semantics of Python's builtin `round` at exact values). -/
def roundHalfEven (q : ℚ) : ℤ :=
  let n := ⌊q⌋
  if q - n < 1/2 then n
  else if 1/2 < q - n then n + 1
  else if Even n then n else n + 1

def fee_for_grade (g : String) : ℤ :=
  if g = "G13" then 350 else if g = "G12" then 250 else 200

/-- The discount branch of `register`: `0.10`/`0.05` are modelled by the exact
rationals they denote. -/
def discount (grade : String) (subtotal : ℤ) (count : Nat) : ℤ :=
  if 3 ≤ count then
    if grade = "G13" then roundHalfEven ((subtotal : ℚ) * (10/100))
    else roundHalfEven ((subtotal : ℚ) * (5/100))
  else 0

/-- Source `total_due = subtotal - discount` as computed server-side in `register`. -/
def total_due (grade : String) (count : Nat) : ℤ :=
  let subtotal := fee_for_grade grade * count
  subtotal - discount grade subtotal count

/-! ### Facts about the rounding and the fee table -/

theorem roundHalfEven_intCast (k : ℤ) : roundHalfEven (k : ℚ) = k := by
  unfold roundHalfEven
  rw [Int.floor_intCast]
  norm_num

theorem roundHalfEven_half (k : ℤ) :
    roundHalfEven ((k : ℚ) + 1/2) = if Even k then k else k + 1 := by
  unfold roundHalfEven
  have hf : ⌊(k : ℚ) + 1/2⌋ = k := by
    rw [Int.floor_eq_iff]
    constructor <;> norm_num
  rw [hf]
  norm_num

/-- Below three subjects no discount is applied: the total is `rate × count`. -/
theorem total_due_no_discount (g : String) (n : Nat) (hn : n < 3) :
    total_due g n = fee_for_grade g * n := by
  unfold total_due discount
  simp only [if_neg (by omega : ¬ 3 ≤ n)]
  ring

/-- Subtracting the half-even-rounded 5% discount from the subtotal agrees with
rounding `rate × n × 0.95` directly, for every non-G13 grade and every count. -/
theorem total_due_95 (g : String) (hg : g ≠ "G13") (n : ℕ) (hn : 3 ≤ n) :
    total_due g n = roundHalfEven ((fee_for_grade g : ℚ) * n * (95/100)) := by
  unfold total_due discount
  simp only [if_pos hn, if_neg hg]
  by_cases hg12 : g = "G12"
  · rw [show fee_for_grade g = 250 from by simp [fee_for_grade, hg, hg12]]
    rcases Nat.even_or_odd n with ⟨m, hm⟩ | ⟨m, hm⟩
    · subst hm
      have h1 : ((250 * (m + m : ℕ) : ℤ) : ℚ) * (5/100) = ((25 * m : ℤ) : ℚ) := by
        push_cast; ring
      have h2 : ((250 : ℤ) : ℚ) * ((m + m : ℕ) : ℚ) * (95/100) = ((475 * m : ℤ) : ℚ) := by
        push_cast; ring
      rw [h1, h2, roundHalfEven_intCast, roundHalfEven_intCast]
      push_cast; ring
    · subst hm
      have h1 : ((250 * (2 * m + 1 : ℕ) : ℤ) : ℚ) * (5/100)
          = ((25 * m + 12 : ℤ) : ℚ) + 1/2 := by push_cast; ring
      have h2 : ((250 : ℤ) : ℚ) * ((2 * m + 1 : ℕ) : ℚ) * (95/100)
          = ((475 * m + 237 : ℤ) : ℚ) + 1/2 := by push_cast; ring
      rw [h1, h2, roundHalfEven_half, roundHalfEven_half]
      have hme : Even (25 * (m : ℤ) + 12) ↔ (m : ℤ) % 2 = 0 := by
        rw [Int.even_iff]; omega
      have hmo : Even (475 * (m : ℤ) + 237) ↔ ¬ ((m : ℤ) % 2 = 0) := by
        rw [Int.even_iff]; omega
      by_cases hm2 : (m : ℤ) % 2 = 0
      · rw [if_pos (hme.mpr hm2), if_neg (by simp [hmo, hm2])]
        push_cast; ring
      · rw [if_neg (by simp [hme, hm2]), if_pos (hmo.mpr hm2)]
        push_cast; ring
  · rw [show fee_for_grade g = 200 from by simp [fee_for_grade, hg, hg12]]
    have h1 : ((200 * n : ℤ) : ℚ) * (5/100) = ((10 * n : ℤ) : ℚ) := by push_cast; ring
    have h2 : ((200 : ℤ) : ℚ) * (n : ℚ) * (95/100) = ((190 * n : ℤ) : ℚ) := by push_cast; ring
    rw [h1, h2, roundHalfEven_intCast, roundHalfEven_intCast]
    ring

/-- For the upgrading tier G13 the 10% discount agrees with rounding
`350 × n × 0.90` directly. -/
theorem total_due_90 (n : ℕ) (hn : 3 ≤ n) :
    total_due "G13" n = roundHalfEven ((350 : ℚ) * n * (90/100)) := by
  unfold total_due discount
  simp only [if_pos hn, if_pos rfl]
  rw [show fee_for_grade "G13" = 350 from rfl]
  have h1 : ((350 * n : ℤ) : ℚ) * (10/100) = ((35 * n : ℤ) : ℚ) := by push_cast; ring
  have h2 : (350 : ℚ) * (n : ℚ) * (90/100) = ((315 * n : ℤ) : ℚ) := by push_cast; ring
  rw [h1, h2, roundHalfEven_intCast, roundHalfEven_intCast]
  push_cast
  ring

/-! ### Facts about `pinFmt` and `gen_pin` -/

/-- Every formatted draw is a well-formed pin: five characters, all digits. -/
theorem pinFmt_valid (n : Nat) : is_valid_pin (pinFmt n) = true := by
  have h : ∀ d < 10, (Char.ofNat (48 + d)).isDigit = true := by decide
  unfold is_valid_pin pinFmt
  simp only [Bool.and_eq_true, beq_iff_eq, List.all_eq_true]
  refine ⟨rfl, ?_⟩
  intro c hc
  simp only [List.mem_cons, List.not_mem_nil, or_false] at hc
  rcases hc with h1 | h1 | h1 | h1 | h1 <;>
    (subst h1; exact h _ (Nat.mod_lt _ (by norm_num)))

/-- A formatted pin is never the empty string. -/
theorem pinFmt_ne_empty (n : Nat) : pinFmt n ≠ "" := by
  intro h
  have := congrArg String.length h
  simp [pinFmt, String.length] at this

/-- If some supplied draw avoids `existing`, the retry loop of `gen_pin`
returns a pin, and that pin is a valid five-digit string outside `existing`. -/
theorem gen_pin_spec (draws : List Nat) (existing : List String)
    (h : ∃ d ∈ draws, pinFmt d ∉ existing) :
    ∃ p, gen_pin draws existing = some p ∧ p ∉ existing ∧ is_valid_pin p = true := by
  induction draws with
  | nil => simp at h
  | cons d rest ih =>
    unfold gen_pin
    by_cases hd : pinFmt d ∈ existing
    · rw [if_pos hd]
      apply ih
      rcases h with ⟨e, he, hne⟩
      rcases List.mem_cons.mp he with rfl | he'
      · exact absurd hd hne
      · exact ⟨e, he', hne⟩
    · rw [if_neg hd]
      exact ⟨pinFmt d, rfl, hd, pinFmt_valid d⟩

/-! ## Data model (source lines 86–213)

Rows carry the columns the verified handlers read or write; columns that are
only stored and echoed back to templates (guardian details, e-mail, school,
timestamps, `pop_url`, the `payment_method`/`result` literals) are elided.
`pin` is nullable in the schema, hence `Option String`. -/

/-- Source `normalize_phone`: keep only the digits. -/
def normalize_phone (p : String) : String := ⟨p.data.filter Char.isDigit⟩

structure Student where
  id : Nat
  phone : String
  pin : Option String
  deriving Repr, DecidableEq

structure Tutor where
  id : Nat
  pin : Option String
  deriving Repr, DecidableEq

structure Subject where
  id : Nat
  grade : String
  deriving Repr, DecidableEq

structure Enrollment where
  id : Nat
  studentId : Nat
  subjectId : Nat
  month : String
  estatus : String          -- 'PENDING' / 'ACTIVE' / 'LAPSED'
  amountPaid : ℤ
  statusToken : String
  deriving Repr, DecidableEq

structure Payment where
  enrollmentId : Nat
  amount : ℤ
  reference : String
  deriving Repr, DecidableEq

structure Sess where
  id : Nat
  subjectId : Nat
  deriving Repr, DecidableEq

structure AttRow where
  sessionId : Nat
  studentId : Nat
  date : String
  deriving Repr, DecidableEq

/-- The sqlite database: each table as a list in rowid order, with the
`AUTOINCREMENT` counters explicit, plus the `settings` key-value table. -/
structure St where
  students : List Student
  tutors : List Tutor
  subjects : List Subject
  enrollments : List Enrollment
  payments : List Payment
  sessions : List Sess
  attendance : List AttRow
  settings : List (String × String)
  nextStudentId : Nat
  nextEnrollmentId : Nat
  deriving Repr, DecidableEq

/-- Source `get_setting(key, default)` (lines 578–584). -/
def get_setting (st : St) (key default : String) : String :=
  match st.settings.find? (fun kv => kv.1 == key) with
  | some kv => kv.2
  | none => default

/-- Source `pin_in_use(conn, pin)` (lines 627–632): a student or tutor row
with that (non-NULL) pin exists. -/
def pin_in_use (st : St) (pin : String) : Bool :=
  st.students.any (fun s => s.pin == some pin) || st.tutors.any (fun t => t.pin == some pin)

/-! ## `POST /register` — EnrollmentRegistrar (source lines 2514–2775)

Form `subject_ids` arrive as decimal strings and sqlite's integer affinity
converts them back on insert; we model them as the numbers they denote.
The proof-of-payment files (saved to disk), the optional annual-registration
row and the `enrollment_files` rows are elided: the claims under proof do
not read them, and they live outside the enrollments/payments tables.
`secrets.token_urlsafe(16)` is the stream `tok`, indexed by enrollment id;
the payment-reference timestamp is the parameter `ts`; `datetime.date.today`
drives the parameter `todayYM` (only used as `get_setting`'s default). -/

inductive RegResult where
  | closed
  | missingFields
  | badPin
  | badPops
  | wrongPin
  | pinInUse
  | invalidSubject
  | paymentError (required : ℤ)
  | noChange
  | submitted (created : List (Nat × String))
  deriving Repr, DecidableEq

structure RegRequest where
  full_name : String
  phone : String
  guardian : String
  guardian_name : String
  subject_ids : List Nat
  pin : String
  popCount : Nat
  amount_paid : ℤ
  deriving Repr, DecidableEq

/-- The per-subject creation loop of `register` (source lines 2684–2757):
skip subjects in `existing` (a snapshot that the loop itself never updates),
otherwise insert an Enrollment, derive the payment reference from the fresh
enrollment id, and insert the Payment row. -/
def regLoop (sid : Nat) (month : String) (amount : ℤ) (ts : String) (tok : Nat → String)
    (existing : List Nat) :
    List Nat → St → List (Nat × String) → St × List (Nat × String)
  | [], st, created => (st, created)
  | subid :: rest, st, created =>
    if subid ∈ existing then regLoop sid month amount ts tok existing rest st created
    else
      let eid := st.nextEnrollmentId
      let token := tok eid
      let payRef := "EFT-" ++ toString eid ++ "-" ++ ts
      let st' : St := { st with
        enrollments := st.enrollments ++
          [⟨eid, sid, subid, month, "PENDING", amount, token⟩],
        payments := st.payments ++ [⟨eid, amount, payRef⟩],
        nextEnrollmentId := eid + 1 }
      regLoop sid month amount ts tok existing rest st' (created ++ [(eid, token)])

/-- Stage of `register` from the student-id resolution onward (source lines 2635–2765):
month lookup, already-enrolled snapshot, grade resolution, server-side fee
recomputation, payment gate, creation loop, commit.  `orig` is the state a
non-commit exit rolls back to; `pending` carries the uncommitted student
insert of a first-time registration. -/
def registerBody (orig : St) (req : RegRequest) (sid s0 : Nat) (todayYM ts : String)
    (tok : Nat → String) (pending : St) : RegResult × St :=
  let month := get_setting pending "current_month" todayYM
  let existing := (pending.enrollments.filter
    (fun e => e.studentId == sid && e.month == month)).map (·.subjectId)
  match pending.subjects.find? (fun sub => sub.id == s0) with
  | none => (.invalidSubject, orig)
  | some subj =>
    let total := total_due subj.grade req.subject_ids.length
    if req.amount_paid ≠ total then (.paymentError total, orig)
    else
      let r := regLoop sid month req.amount_paid ts tok existing req.subject_ids pending []
      -- conn.commit() runs here, before the `if not created` check
      if r.2 = [] then (.noChange, r.1) else (.submitted r.2, r.1)

/-- The student-resolution step of `register` (source lines 2565–2612): an
existing phone must present its stored pin; a new phone must present a
collision-free pin and a resolvable grade, and gets a Student row inserted
(uncommitted — held in the `pending` state passed on). -/
def registerStudent (st : St) (req : RegRequest) (s0 : Nat) (todayYM ts : String)
    (tok : Nat → String) : RegResult × St :=
  match st.students.find? (fun s => s.phone == normalize_phone req.phone) with
  | some srow =>
    if srow.pin ≠ some req.pin then (.wrongPin, st)
    else registerBody st req srow.id s0 todayYM ts tok st
  | none =>
    if pin_in_use st req.pin then (.pinInUse, st)
    else
      match st.subjects.find? (fun sub => sub.id == s0) with
      | none => (.invalidSubject, st)
      | some _ =>
        registerBody st req st.nextStudentId s0 todayYM ts tok
          { st with
            students := st.students ++
              [⟨st.nextStudentId, normalize_phone req.phone, some req.pin⟩],
            nextStudentId := st.nextStudentId + 1 }

/-- The validation prefix of `register` (source lines 2540–2563): required
fields, pin shape, proof-of-payment count. -/
def registerFields (st : St) (req : RegRequest) (todayYM ts : String)
    (tok : Nat → String) : RegResult × St :=
  match req.subject_ids with
  | [] => (.missingFields, st)
  | s0 :: _ =>
    if req.full_name = "" ∨ normalize_phone req.phone = "" ∨ req.guardian = ""
        ∨ req.guardian_name = "" ∨ req.pin = "" then (.missingFields, st)
    else if ¬ is_valid_pin req.pin then (.badPin, st)
    else if req.popCount < 1 ∨ 2 < req.popCount then (.badPops, st)
    else registerStudent st req s0 todayYM ts tok

/-- Handler `POST /register` (source lines 2514–2765): feature gate, then validation,
student resolution, and `registerBody`. -/
def register (st : St) (req : RegRequest) (todayYM ts : String) (tok : Nat → String) :
    RegResult × St :=
  if get_setting st "enrollment_open" "1" ≠ "1" then (.closed, st)
  else registerFields st req todayYM ts tok

/-! ## `GET /status/<id>` — StatusTokenGate (source lines 2841–2861) -/

inductive StatusResult where
  | notFound
  | forbidden
  | ok (id : Nat)
  deriving Repr, DecidableEq

/-- The status page: look the enrollment up (joined against its student and
subject), then gate on the token exactly as the source does:
`if token and token != e['status_token']` — a missing (`none`) or empty
token is falsy and skips the check entirely. -/
def status (st : St) (id : Nat) (token : Option String) : StatusResult :=
  match st.enrollments.find? (fun e => e.id == id) with
  | none => .notFound
  | some e =>
    match st.students.find? (fun s => s.id == e.studentId),
          st.subjects.find? (fun sub => sub.id == e.subjectId) with
    | some _, some _ =>
      match token with
      | none => .ok id
      | some t => if t ≠ "" ∧ t ≠ e.statusToken then .forbidden else .ok id
    | _, _ => .notFound

/-! ## `POST /admin/enrollments/<id>/approve` — EnrollmentApprovalWorkflow
(source lines 4447–4488)

The notification assembly and dispatch (lines 4497–4546) are wrapped in
`try/except: pass` and do not touch the database; they are elided.
`draws` is the `random.randint` draw sequence consumed by `gen_pin`;
`approve` returns `none` when every supplied draw collides (the retry loop
would not have terminated). -/

/-- Update `UPDATE enrollments SET status='ACTIVE' WHERE id=?` applied to one row. -/
def setActive (eid : Nat) (x : Enrollment) : Enrollment :=
  if x.id = eid then { x with estatus := "ACTIVE" } else x

/-- Update `UPDATE students SET pin=? WHERE id=?` applied to one row. -/
def setPin (sid : Nat) (p : String) (s : Student) : Student :=
  if s.id = sid then { s with pin := some p } else s

/-- The collision set handed to `gen_pin`: every non-NULL student and tutor
pin (source lines 4481–4485). -/
def pinsOf (st : St) : List String :=
  st.students.filterMap (fun s => s.pin) ++ st.tutors.filterMap (fun t => t.pin)

def approve (st : St) (eid : Nat) (draws : List Nat) : Option St :=
  -- UPDATE enrollments SET status='ACTIVE' WHERE id=?
  let st1 : St := { st with enrollments := st.enrollments.map (setActive eid) }
  match st1.enrollments.find? (fun e => e.id == eid) with
  | none => some st1
  | some e =>
    match st1.students.find? (fun s => s.id == e.studentId) with
    | none => some st1
    | some srow =>
      -- `if not notify_pin`: both NULL and '' are falsy
      if srow.pin = none ∨ srow.pin = some "" then
        match gen_pin draws (pinsOf st1) with
        | none => none
        | some newPin =>
          some { st1 with students := st1.students.map (setPin srow.id newPin) }
      else some st1

/-! ## `GET /session/<id>/qr` and `POST /attend` — SessionQRGenerator /
AttendanceCheckIn (source lines 5332–5465) -/

inductive AttendResult where
  | missing        -- "Missing code or phone."
  | badCode        -- "Bad code." (the except-branch of the decode try)
  | notFoundPhone  -- "We couldn't find your number…"
  | notFoundSession
  | crash          -- unhandled exception escaping the handler (HTTP 500)
  | notActive
  | checkedIn
  deriving Repr, DecidableEq

/-- Handler `POST /attend` (source lines 5419–5465).

The body of the `try` is
`payload = literal_eval(b64url_decode(code).decode('utf-8'))` — but the
module never imports `literal_eval` (there is no `import ast` and no
`from ast import literal_eval` anywhere in the file), so evaluating the name
raises `NameError`, which `except Exception` catches: every request with a
non-empty code and phone returns the "Bad code." page, whatever the code is.

The statement `month = get_setting('current_month')` sits inside that except
branch *after* its `return`, so it is unreachable; its mere presence makes
`month` a local name, so the enrollment query further down would raise
`UnboundLocalError` even if the import were fixed
(see `attend_post_resumed`). -/
def attend_post (st : St) (code phone : String) : AttendResult × St :=
  if code = "" ∨ phone = "" then (.missing, st)
  else (.badCode, st)

/-- The part of `POST /attend` after the decode `try` (source lines
5430–5465), as it would run on a decoded payload: `month` is the value of
the local variable at the enrollment query — `none` models it being unbound
(the only assignment to it is the dead line inside the except branch). -/
def attend_post_resumed (st : St) (sessionId : Nat) (date phone : String)
    (month : Option String) : AttendResult × St :=
  match st.students.find? (fun s => s.phone == phone) with
  | none => (.notFoundPhone, st)
  | some srow =>
    match st.sessions.find? (fun se => se.id == sessionId) with
    | none => (.notFoundSession, st)
    | some ses =>
      match month with
      | none => (.crash, st)  -- UnboundLocalError: 'month' referenced before assignment
      | some m =>
        match st.enrollments.find? (fun e =>
            e.studentId == srow.id && e.subjectId == ses.subjectId
              && e.month == m && e.estatus == "ACTIVE") with
        | none => (.notActive, st)
        | some _ =>
          (.checkedIn, { st with attendance := st.attendance ++ [⟨sessionId, srow.id, date⟩] })

/-! ## The QR payload codec (source lines 634–637, 5348–5351, 5424–5429)

`b64url_encode(b)` is `base64.urlsafe_b64encode(b)` with the `'='` padding
stripped; `b64url_decode(s)` restores the padding (`'=' * (-len(s) % 4)`) and
decodes.  We model bytes as naturals below 256.  The decoder below consumes
the unpadded string in groups of four sextet characters; its trailing
two- and three-character cases are exactly the `'=='` / `'='` padded final
blocks, so it coincides with pad-then-decode on every unpadded encoding. -/

/-- The urlsafe base64 alphabet: `A–Z a–z 0–9 - _`. -/
def b64Char (v : Nat) : Char :=
  if v < 26 then Char.ofNat (65 + v)
  else if v < 52 then Char.ofNat (97 + (v - 26))
  else if v < 62 then Char.ofNat (48 + (v - 52))
  else if v = 62 then Char.ofNat 45 else Char.ofNat 95

/-- Inverse alphabet lookup (`none` for a character outside the alphabet). -/
def b64Val (c : Char) : Option Nat :=
  if Char.ofNat 65 ≤ c ∧ c ≤ Char.ofNat 90 then some (c.toNat - 65)
  else if Char.ofNat 97 ≤ c ∧ c ≤ Char.ofNat 122 then some (c.toNat - 71)
  else if Char.ofNat 48 ≤ c ∧ c ≤ Char.ofNat 57 then some (c.toNat + 4)
  else if c = Char.ofNat 45 then some 62
  else if c = Char.ofNat 95 then some 63
  else none

theorem b64Val_b64Char : ∀ v : Fin 64, b64Val (b64Char v.val) = some v.val := by decide

/-- Base64-encode a byte list, three bytes to four characters, the final one
or two bytes yielding two or three characters (their `'='` padding already
stripped, as `b64url_encode` does). -/
def b64encBytes : List Nat → List Char
  | [] => []
  | [a] => [b64Char (a / 4), b64Char (a % 4 * 16)]
  | [a, b] => [b64Char (a / 4), b64Char (a % 4 * 16 + b / 16), b64Char (b % 16 * 4)]
  | a :: b :: c :: rest =>
    b64Char (a / 4) :: b64Char (a % 4 * 16 + b / 16) :: b64Char (b % 16 * 4 + c / 64) ::
      b64Char (c % 64) :: b64encBytes rest

/-- Base64-decode an unpadded character list (pad-restoration folded in:
the two- and three-character tails are the `'=='` and `'='` blocks). -/
def b64decChars : List Char → Option (List Nat)
  | [] => some []
  | [_] => none
  | [x, y] =>
    match b64Val x, b64Val y with
    | some vx, some vy => some [vx * 4 + vy / 16]
    | _, _ => none
  | [x, y, z] =>
    match b64Val x, b64Val y, b64Val z with
    | some vx, some vy, some vz => some [vx * 4 + vy / 16, vy % 16 * 16 + vz / 4]
    | _, _, _ => none
  | x :: y :: z :: w :: rest =>
    match b64Val x, b64Val y, b64Val z, b64Val w, b64decChars rest with
    | some vx, some vy, some vz, some vw, some tail =>
      some ((vx * 4 + vy / 16) :: (vy % 16 * 16 + vz / 4) :: (vz % 4 * 64 + vw) :: tail)
    | _, _, _, _, _ => none

def b64url_encode (bytes : List Nat) : String := ⟨b64encBytes bytes⟩

def b64url_decode (s : String) : Option (List Nat) := b64decChars s.data

/-- Decoding inverts encoding on every byte list. -/
theorem b64_roundtrip (bs : List Nat) (h : ∀ b ∈ bs, b < 256) :
    b64decChars (b64encBytes bs) = some bs := by
  induction bs using b64encBytes.induct with
  | case1 => rfl
  | case2 a =>
    have ha : a < 256 := h a (by simp)
    have h1 := b64Val_b64Char ⟨a / 4, by omega⟩
    have h2 := b64Val_b64Char ⟨a % 4 * 16, by omega⟩
    simp only [b64encBytes, b64decChars, h1, h2]
    simp only [Option.some.injEq, List.cons.injEq, and_true]
    omega
  | case3 a b =>
    have ha : a < 256 := h a (by simp)
    have hb : b < 256 := h b (by simp)
    have h1 := b64Val_b64Char ⟨a / 4, by omega⟩
    have h2 := b64Val_b64Char ⟨a % 4 * 16 + b / 16, by omega⟩
    have h3 := b64Val_b64Char ⟨b % 16 * 4, by omega⟩
    simp only [b64encBytes, b64decChars, h1, h2, h3]
    simp only [Option.some.injEq, List.cons.injEq, and_true]
    omega
  | case4 a b c rest ih =>
    have ha : a < 256 := h a (by simp)
    have hb : b < 256 := h b (by simp)
    have hc : c < 256 := h c (by simp)
    have hrest : ∀ x ∈ rest, x < 256 := fun x hx => h x (by simp [hx])
    have h1 := b64Val_b64Char ⟨a / 4, by omega⟩
    have h2 := b64Val_b64Char ⟨a % 4 * 16 + b / 16, by omega⟩
    have h3 := b64Val_b64Char ⟨b % 16 * 4 + c / 64, by omega⟩
    have h4 := b64Val_b64Char ⟨c % 64, by omega⟩
    have hr := ih hrest
    simp only [b64encBytes, b64decChars, h1, h2, h3, h4, hr]
    simp only [Option.some.injEq, List.cons.injEq, and_true]
    omega

/-! ## The payload text: `str({'session_id': id, 'date': today})` and its
`literal_eval` inverse

`session_qr` builds `payload = {'session_id': id, 'date': today}` and encodes
`str(payload).encode('utf-8')`; `attend_post` would run
`literal_eval(b64url_decode(code).decode('utf-8'))`.  For an int `session_id`
and a quote-free printable-ASCII `date` (the generator only ever supplies
`YYYY-MM-DD`), CPython's `str` of that dict is the text
`{'session_id': <decimal>, 'date': '<date>'}`, and `literal_eval` on text of
that shape recovers exactly the two values; `parse_payload` is `literal_eval`
restricted to this grammar.  All characters involved are ASCII, so UTF-8
encoding/decoding is code points as bytes (`strBytes` / `bytesStr`). -/

def natDigits (n : Nat) : List Char :=
  if h : n < 10 then [Char.ofNat (48 + n)]
  else natDigits (n / 10) ++ [Char.ofNat (48 + n % 10)]
  decreasing_by exact Nat.div_lt_self (by omega) (by omega)

def parseNatDigits (ds : List Char) : Nat :=
  ds.foldl (fun a c => a * 10 + (c.toNat - 48)) 0

theorem digit_isDigit : ∀ d < 10, (Char.ofNat (48 + d)).isDigit = true := by decide

theorem natDigits_digits (n : Nat) : ∀ c ∈ natDigits n, c.isDigit = true := by
  induction n using natDigits.induct with
  | case1 n h =>
    intro c hc
    rw [natDigits, dif_pos h] at hc
    simp only [List.mem_singleton] at hc
    subst hc
    exact digit_isDigit n h
  | case2 n h ih =>
    intro c hc
    rw [natDigits, dif_neg h] at hc
    rcases List.mem_append.mp hc with h1 | h1
    · exact ih c h1
    · simp only [List.mem_singleton] at h1
      subst h1
      exact digit_isDigit _ (Nat.mod_lt _ (by omega))

theorem natDigits_ne_nil (n : Nat) : natDigits n ≠ [] := by
  rw [natDigits]
  split <;> simp

theorem foldl_digits (n : Nat) : ∀ a : Nat,
    (natDigits n).foldl (fun a c => a * 10 + (c.toNat - 48)) a
      = a * 10 ^ (natDigits n).length + n := by
  induction n using natDigits.induct with
  | case1 n h =>
    intro a
    rw [natDigits, dif_pos h]
    have hv : (Char.ofNat (48 + n)).toNat = 48 + n := by
      interval_cases n <;> decide
    simp only [List.foldl, hv, List.length_singleton, pow_one]
    omega
  | case2 n h ih =>
    intro a
    rw [natDigits, dif_neg h]
    rw [List.foldl_append]
    rw [ih]
    have : (Char.ofNat (48 + n % 10)).toNat = 48 + n % 10 := by
      have hlt : n % 10 < 10 := Nat.mod_lt _ (by omega)
      interval_cases h : (n % 10) <;> decide
    simp [List.foldl, this, List.length_append]
    ring_nf
    omega

/-- Parsing decimal text inverts printing it. -/
theorem parseNat_natDigits (n : Nat) : parseNatDigits (natDigits n) = n := by
  unfold parseNatDigits
  rw [foldl_digits n 0]
  simp

/-- The single-quote, `U+007B` and `U+007D` characters (kept out of literals
so the grammar reads unambiguously). -/
def sq : Char := Char.ofNat 39

def lbr : Char := Char.ofNat 123

def rbr : Char := Char.ofNat 125

def payloadHead : List Char := [lbr, sq] ++ "session_id".data ++ [sq, ':', ' ']

def dateKey : List Char := [',', ' ', sq] ++ "date".data ++ [sq, ':', ' ', sq]

def payloadSuffix : List Char := [sq, rbr]

/-- Python `str({'session_id': n, 'date': d})` for a quote-free ASCII `d`. -/
def payload_str (sessionId : Nat) (date : String) : String :=
  ⟨payloadHead ++ natDigits sessionId ++ dateKey ++ date.data ++ payloadSuffix⟩

/-- Consume an expected literal prefix. -/
def expectChars : List Char → List Char → Option (List Char)
  | [], rest => some rest
  | _ :: _, [] => none
  | p :: ps, c :: cs => if c = p then expectChars ps cs else none

/-- Model of `literal_eval` restricted to the payload grammar
`{'session_id': <digits>, 'date': '<text without quotes>'}`. -/
def parse_payload (s : String) : Option (Nat × String) :=
  match expectChars payloadHead s.data with
  | none => none
  | some r1 =>
    let ds := r1.takeWhile Char.isDigit
    let r2 := r1.dropWhile Char.isDigit
    if ds = [] then none
    else
      match expectChars dateKey r2 with
      | none => none
      | some r3 =>
        let dcs := r3.takeWhile (fun c => c != sq)
        let r4 := r3.dropWhile (fun c => c != sq)
        if r4 = payloadSuffix then some (parseNatDigits ds, ⟨dcs⟩) else none

theorem expectChars_append (p rest : List Char) : expectChars p (p ++ rest) = some rest := by
  induction p with
  | nil => rfl
  | cons x xs ih => simp [expectChars, ih]

theorem takeWhile_append_of_all {p : Char → Bool} (xs ys : List Char)
    (hxs : ∀ x ∈ xs, p x = true) (hys : ys = [] ∨ p (ys.headI) = false) :
    (xs ++ ys).takeWhile p = xs ∧ (xs ++ ys).dropWhile p = ys := by
  induction xs with
  | nil =>
    rcases hys with rfl | hh
    · simp
    · cases ys with
      | nil => simp
      | cons y ys' =>
        simp only [List.headI] at hh
        simp [List.takeWhile, List.dropWhile, hh]
  | cons x xs ih =>
    have hx : p x = true := hxs x (by simp)
    have := ih (fun z hz => hxs z (by simp [hz]))
    simp [List.takeWhile, List.dropWhile, hx, this.1, this.2]

/-- Parsing `parse_payload` inverts `payload_str` whenever the date text consists of
digits and hyphens (as `YYYY-MM-DD` does). -/
theorem parse_payload_roundtrip (sid : Nat) (date : String)
    (hdate : ∀ c ∈ date.data, c.isDigit = true ∨ c = '-') :
    parse_payload (payload_str sid date) = some (sid, date) := by
  have hne := natDigits_ne_nil sid
  have hdq : ∀ c ∈ date.data, (c != sq) = true := by
    intro c hc
    rcases hdate c hc with h | h
    · rw [bne_iff_ne]
      intro he
      subst he
      exact absurd h (by decide)
    · subst h
      decide
  have htake1 := takeWhile_append_of_all (p := Char.isDigit)
    (natDigits sid) (dateKey ++ (date.data ++ payloadSuffix)) (natDigits_digits sid)
    (Or.inr rfl)
  have htake2 := takeWhile_append_of_all (p := fun c => c != sq)
    date.data payloadSuffix hdq (Or.inr rfl)
  have hp1 : expectChars payloadHead
      ((payloadHead ++ natDigits sid ++ dateKey ++ date.data ++ payloadSuffix) : List Char)
      = some (natDigits sid ++ (dateKey ++ (date.data ++ payloadSuffix))) := by
    rw [show payloadHead ++ natDigits sid ++ dateKey ++ date.data ++ payloadSuffix
      = payloadHead ++ (natDigits sid ++ (dateKey ++ (date.data ++ payloadSuffix))) by
        simp [List.append_assoc]]
    exact expectChars_append _ _
  have ht1 : (natDigits sid ++ (dateKey ++ (date.data ++ payloadSuffix))).takeWhile
      Char.isDigit = natDigits sid := htake1.1
  have hd1 : (natDigits sid ++ (dateKey ++ (date.data ++ payloadSuffix))).dropWhile
      Char.isDigit = dateKey ++ (date.data ++ payloadSuffix) := htake1.2
  have hp2 : expectChars dateKey (dateKey ++ (date.data ++ payloadSuffix))
      = some (date.data ++ payloadSuffix) := expectChars_append _ _
  unfold parse_payload payload_str
  simp only [hp1, ht1, hd1, hp2, if_neg hne, htake2.1, htake2.2, if_pos rfl,
    parseNat_natDigits]
  rfl

/-- Python `str.encode('utf-8')` on ASCII text: the code points as bytes. -/
def strBytes (s : String) : List Nat := s.data.map Char.toNat

/-- Python `bytes.decode('utf-8')` on ASCII bytes. -/
def bytesStr (bs : List Nat) : String := ⟨bs.map Char.ofNat⟩

theorem bytesStr_strBytes (s : String) : bytesStr (strBytes s) = s := by
  unfold bytesStr strBytes
  rw [List.map_map]
  congr 1
  rw [show Char.ofNat ∘ Char.toNat = id from funext fun c => Char.ofNat_toNat c]
  exact List.map_id _

theorem isDigit_toNat_lt (c : Char) (h : c.isDigit = true) : c.toNat < 256 := by
  simp only [Char.isDigit, Bool.and_eq_true, decide_eq_true_eq] at h
  have h3 : c.val.toNat ≤ (57 : UInt32).toNat := h.2
  have h5 : (57 : UInt32).toNat = 57 := rfl
  have h4 : c.toNat = c.val.toNat := rfl
  omega

/-- The code `session_qr` embeds in the check-in URL (source lines 5349–5350):
`b64url_encode(str(payload).encode('utf-8'))`. -/
def session_qr_code (sessionId : Nat) (date : String) : String :=
  b64url_encode (strBytes (payload_str sessionId date))

/-- The decode step of `attend_post` (source line 5425):
`literal_eval(b64url_decode(code).decode('utf-8'))` followed by reading
`session_id` (already an int) and `date` out of the dict. -/
def attend_decode (code : String) : Option (Nat × String) :=
  match b64url_decode code with
  | none => none
  | some bytes => parse_payload (bytesStr bytes)

theorem payload_bytes_lt (sid : Nat) (date : String)
    (hdate : ∀ c ∈ date.data, c.isDigit = true ∨ c = '-') :
    ∀ b ∈ strBytes (payload_str sid date), b < 256 := by
  intro b hb
  unfold strBytes payload_str at hb
  simp only [List.mem_map] at hb
  obtain ⟨c, hc, rfl⟩ := hb
  simp only [List.mem_append] at hc
  have hpre : ∀ c ∈ payloadHead, c.toNat < 256 := by decide
  have hkey : ∀ c ∈ dateKey, c.toNat < 256 := by decide
  have hsuf : ∀ c ∈ payloadSuffix, c.toNat < 256 := by decide
  rcases hc with ((((h | h) | h) | h) | h)
  · exact hpre c h
  · exact isDigit_toNat_lt c (natDigits_digits sid c h)
  · exact hkey c h
  · rcases hdate c h with hd | hd
    · exact isDigit_toNat_lt c hd
    · subst hd; decide
  · exact hsuf c h

/-- C8: for every session id and (digits-and-hyphens) date string, decoding
the code embedded in the check-in URL by `session_qr` — base64url decoding
with padding restored, followed by parsing the dict-literal text — recovers
exactly the `(session_id, date)` payload that was encoded: a round-trip
identity between the generator's encoding and the check-in decoding. -/
theorem C8_qr_roundtrip (sid : Nat) (date : String)
    (hdate : ∀ c ∈ date.data, c.isDigit = true ∨ c = '-') :
    attend_decode (session_qr_code sid date) = some (sid, date) := by
  unfold attend_decode session_qr_code b64url_decode b64url_encode
  rw [show (⟨b64encBytes (strBytes (payload_str sid date))⟩ : String).data
    = b64encBytes (strBytes (payload_str sid date)) from rfl]
  rw [b64_roundtrip _ (payload_bytes_lt sid date hdate)]
  show parse_payload (bytesStr (strBytes (payload_str sid date))) = some (sid, date)
  rw [bytesStr_strBytes]
  exact parse_payload_roundtrip sid date hdate

/-! ## Counting enrollments per (student, subject, month) -/


def countTriple (st : St) (sid subid : Nat) (m : String) : Nat :=
  (st.enrollments.filter
    (fun e => e.studentId == sid && e.subjectId == subid && e.month == m)).length

def uniqueTriples (st : St) : Prop := ∀ sid subid m, countTriple st sid subid m ≤ 1

theorem regLoop_countTriple (sid : Nat) (month : String) (amount : ℤ) (ts : String)
    (tok : Nat → String) (existing : List Nat) (subs : List Nat) :
    ∀ (st : St) (created : List (Nat × String)) (a b : Nat) (c : String),
    countTriple (regLoop sid month amount ts tok existing subs st created).1 a b c
      = countTriple st a b c
        + (if a = sid ∧ c = month ∧ b ∉ existing then subs.count b else 0) := by
  induction subs with
  | nil =>
    intro st created a b c
    simp [regLoop, List.count_nil]
  | cons s rest ih =>
    intro st created a b c
    unfold regLoop
    by_cases hs : s ∈ existing
    · rw [if_pos hs, ih]
      by_cases hcond : a = sid ∧ c = month ∧ b ∉ existing
      · rw [if_pos hcond, if_pos hcond]
        have hbs : ¬ (s = b) := fun he => hcond.2.2 (he ▸ hs)
        rw [List.count_cons]
        simp [hbs]
      · rw [if_neg hcond, if_neg hcond]
    · rw [if_neg hs, ih]
      have hct : countTriple { st with
          enrollments := st.enrollments ++
            [⟨st.nextEnrollmentId, sid, s, month, "PENDING", amount, tok st.nextEnrollmentId⟩],
          payments := st.payments ++
            [⟨st.nextEnrollmentId, amount,
              "EFT-" ++ toString st.nextEnrollmentId ++ "-" ++ ts⟩],
          nextEnrollmentId := st.nextEnrollmentId + 1 } a b c
          = countTriple st a b c + (if a = sid ∧ b = s ∧ c = month then 1 else 0) := by
        unfold countTriple
        rw [List.filter_append, List.length_append]
        congr 1
        by_cases hm2 : a = sid ∧ b = s ∧ c = month
        · obtain ⟨h1, h2, h3⟩ := hm2
          subst h1; subst h2; subst h3
          simp
        · rw [if_neg hm2]
          have hf : (sid == a && (s == b) && (month == c)) = false := by
            by_contra hb
            rw [Bool.not_eq_false, Bool.and_eq_true, Bool.and_eq_true] at hb
            obtain ⟨⟨e1, e2⟩, e3⟩ := hb
            exact hm2 ⟨(beq_iff_eq.mp e1).symm, (beq_iff_eq.mp e2).symm,
              (beq_iff_eq.mp e3).symm⟩
          simp only [List.filter, hf]
          rfl
      rw [hct, List.count_cons]
      by_cases hcond : a = sid ∧ c = month ∧ b ∉ existing
      · by_cases hbs : b = s
        · subst hbs
          rw [if_pos ⟨hcond.1, rfl, hcond.2.1⟩, if_pos hcond, if_pos hcond]
          simp
          omega
        · rw [if_pos hcond, if_pos hcond, if_neg (fun h => hbs h.2.1)]
          have hsb : ¬ (s = b) := fun h => hbs h.symm
          simp [hsb]
      · have htr : ¬ (a = sid ∧ b = s ∧ c = month) := by
          intro h
          exact hcond ⟨h.1, h.2.2, h.2.1 ▸ hs⟩
        rw [if_neg htr, if_neg hcond, if_neg hcond]

/-! ## Facts about `approve` -/


theorem find?_map_id_preserving {α : Type} (l : List α) (f : α → α) (p : α → Bool)
    (hp : ∀ x, p (f x) = p x) : (l.map f).find? p = (l.find? p).map f := by
  induction l with
  | nil => rfl
  | cons x xs ih =>
    by_cases hx : p x = true
    · rw [List.map_cons, List.find?_cons_of_pos _ (by rw [hp]; exact hx),
        List.find?_cons_of_pos _ hx, Option.map_some']
    · rw [List.map_cons, List.find?_cons_of_neg _ (by rw [hp]; simpa using hx),
        List.find?_cons_of_neg _ (by simpa using hx), ih]

def enrollmentStatusOf (st : St) (eid : Nat) : Option String :=
  (st.enrollments.find? (fun x => x.id == eid)).map (fun x => x.estatus)

def pinOf (st : St) (sid : Nat) : Option (Option String) :=
  (st.students.find? (fun s => s.id == sid)).map (fun s => s.pin)

theorem setActive_id_pred (eid : Nat) :
    ∀ x : Enrollment, ((setActive eid x).id == eid) = (x.id == eid) := by
  intro x
  unfold setActive
  by_cases hid : x.id = eid
  · simp [hid]
  · simp [hid]

theorem setPin_id_pred (sid : Nat) (p : String) (k : Nat) :
    ∀ s : Student, ((setPin sid p s).id == k) = (s.id == k) := by
  intro s
  unfold setPin
  by_cases hid : s.id = sid
  · simp [hid]
  · simp [hid]

/-- Reduction of `approve` at a found enrollment and student. -/
theorem approve_eq (st : St) (eid : Nat) (draws : List Nat) (e : Enrollment) (srow : Student)
    (he : st.enrollments.find? (fun x => x.id == eid) = some e)
    (hs : st.students.find? (fun s => s.id == e.studentId) = some srow) :
    approve st eid draws =
      (if srow.pin = none ∨ srow.pin = some "" then
        match gen_pin draws (pinsOf st) with
        | none => none
        | some p => some { st with
            enrollments := st.enrollments.map (setActive eid),
            students := st.students.map (setPin srow.id p) }
      else some { st with enrollments := st.enrollments.map (setActive eid) }) := by
  have heid : e.id = eid := by
    have h := List.find?_some he
    simpa using h
  have hfind1 : (st.enrollments.map (setActive eid)).find? (fun x => x.id == eid)
      = some (setActive eid e) := by
    rw [find?_map_id_preserving _ _ _ (setActive_id_pred eid), he, Option.map_some']
  have hact : setActive eid e = { e with estatus := "ACTIVE" } := by
    unfold setActive
    rw [if_pos heid]
  simp only [approve]
  rw [hfind1, hact]
  show (match st.students.find? (fun s => s.id == e.studentId) with
    | none => some { st with enrollments := st.enrollments.map (setActive eid) }
    | some srow =>
      if srow.pin = none ∨ srow.pin = some "" then
        match gen_pin draws (pinsOf { st with
            enrollments := st.enrollments.map (setActive eid) }) with
        | none => none
        | some newPin =>
          some { st with
            enrollments := st.enrollments.map (setActive eid),
            students := st.students.map (setPin srow.id newPin) }
      else some { st with enrollments := st.enrollments.map (setActive eid) }) = _
  rw [hs]
  rfl


theorem valid_pin_ne_empty (p : String) (h : is_valid_pin p = true) : p ≠ "" := by
  intro he
  rw [he] at h
  exact absurd h (by decide)

theorem map_setActive_idem (eid : Nat) (l : List Enrollment) :
    (l.map (setActive eid)).map (setActive eid) = l.map (setActive eid) := by
  rw [List.map_map]
  apply List.map_congr_left
  intro x _
  show setActive eid (setActive eid x) = setActive eid x
  unfold setActive
  by_cases hid : x.id = eid
  · simp [hid]
  · simp [hid]

/-- C7: `approve` is idempotent in effect — after it the enrollment's status
is ACTIVE; a PIN is generated and persisted only when the owning student's
pin is missing (NULL or empty) at call time, and it is then a valid five-digit
pin colliding with no existing student or tutor pin; and a second `approve`
returns the same state, so two approve calls never issue two different PINs
for the student. -/
theorem C7_approve_idempotent (st : St) (eid : Nat) (draws draws2 : List Nat)
    (e : Enrollment) (srow : Student)
    (he : st.enrollments.find? (fun x => x.id == eid) = some e)
    (hs : st.students.find? (fun s => s.id == e.studentId) = some srow)
    (hdraws : ∃ d ∈ draws, pinFmt d ∉ pinsOf st) :
    ∃ st1, approve st eid draws = some st1
      ∧ enrollmentStatusOf st1 eid = some "ACTIVE"
      ∧ (srow.pin ≠ none → srow.pin ≠ some "" → st1.students = st.students)
      ∧ ((srow.pin = none ∨ srow.pin = some "") →
          ∃ p, pinOf st1 e.studentId = some (some p) ∧ is_valid_pin p = true
            ∧ p ∉ pinsOf st)
      ∧ approve st1 eid draws2 = some st1 := by
  have heid : e.id = eid := by
    have h := List.find?_some he
    simpa using h
  have hfind1 : (st.enrollments.map (setActive eid)).find? (fun x => x.id == eid)
      = some (setActive eid e) := by
    rw [find?_map_id_preserving _ _ _ (setActive_id_pred eid), he, Option.map_some']
  have hact : setActive eid e = { e with estatus := "ACTIVE" } := by
    unfold setActive
    rw [if_pos heid]
  rw [approve_eq st eid draws e srow he hs]
  by_cases hpin : srow.pin = none ∨ srow.pin = some ""
  · rw [if_pos hpin]
    obtain ⟨p, hgp, hpnot, hpv⟩ := gen_pin_spec draws (pinsOf st) hdraws
    rw [hgp]
    refine ⟨_, rfl, ?_, ?_, ?_, ?_⟩
    · unfold enrollmentStatusOf
      show ((st.enrollments.map (setActive eid)).find? (fun x => x.id == eid)).map
        (fun x => x.estatus) = some "ACTIVE"
      rw [hfind1, hact]
      rfl
    · intro h1 h2
      rcases hpin with h | h
      · exact absurd h h1
      · exact absurd h h2
    · intro _
      refine ⟨p, ?_, hpv, hpnot⟩
      unfold pinOf
      show ((st.students.map (setPin srow.id p)).find? (fun s => s.id == e.studentId)).map
        (fun s => s.pin) = some (some p)
      rw [find?_map_id_preserving _ _ _ (fun s => setPin_id_pred srow.id p e.studentId s),
        hs, Option.map_some']
      rw [show setPin srow.id p srow = { srow with pin := some p } from by
        unfold setPin; rw [if_pos rfl]]
      rfl
    · have he2 : (({ st with
          enrollments := st.enrollments.map (setActive eid),
          students := st.students.map (setPin srow.id p) } : St)).enrollments.find?
          (fun x => x.id == eid) = some { e with estatus := "ACTIVE" } := by
        rw [← hact]
        exact hfind1
      have hs2 : (({ st with
          enrollments := st.enrollments.map (setActive eid),
          students := st.students.map (setPin srow.id p) } : St)).students.find?
          (fun s => s.id == ({ e with estatus := "ACTIVE" } : Enrollment).studentId)
          = some (setPin srow.id p srow) := by
        show (st.students.map (setPin srow.id p)).find?
          (fun s => s.id == e.studentId) = some (setPin srow.id p srow)
        rw [find?_map_id_preserving _ _ _ (fun s => setPin_id_pred srow.id p e.studentId s),
          hs, Option.map_some']
      rw [approve_eq _ eid draws2 { e with estatus := "ACTIVE" } (setPin srow.id p srow) he2 hs2]
      have hsp : setPin srow.id p srow = { srow with pin := some p } := by
        unfold setPin; rw [if_pos rfl]
      rw [if_neg (by
        rw [hsp]
        push_neg
        exact ⟨by simp, by simp [valid_pin_ne_empty p hpv]⟩)]
      congr 1
      rw [show (({ st with
          enrollments := st.enrollments.map (setActive eid),
          students := st.students.map (setPin srow.id p) } : St)).enrollments
          = st.enrollments.map (setActive eid) from rfl]
      rw [map_setActive_idem]
  · rw [if_neg hpin]
    refine ⟨_, rfl, ?_, ?_, ?_, ?_⟩
    · unfold enrollmentStatusOf
      show ((st.enrollments.map (setActive eid)).find? (fun x => x.id == eid)).map
        (fun x => x.estatus) = some "ACTIVE"
      rw [hfind1, hact]
      rfl
    · intro _ _
      rfl
    · intro h
      exact absurd h hpin
    · have he2 : (({ st with
          enrollments := st.enrollments.map (setActive eid) } : St)).enrollments.find?
          (fun x => x.id == eid) = some { e with estatus := "ACTIVE" } := by
        rw [← hact]
        exact hfind1
      have hs2 : (({ st with
          enrollments := st.enrollments.map (setActive eid) } : St)).students.find?
          (fun s => s.id == ({ e with estatus := "ACTIVE" } : Enrollment).studentId)
          = some srow := hs
      rw [approve_eq _ eid draws2 { e with estatus := "ACTIVE" } srow he2 hs2]
      rw [if_neg hpin]
      congr 1
      rw [show (({ st with
          enrollments := st.enrollments.map (setActive eid) } : St)).enrollments
          = st.enrollments.map (setActive eid) from rfl]
      rw [map_setActive_idem]

/-! ## Counting effects of `register` -/

theorem countTriple_zero_of_not_mem (pending : St) (sid b : Nat) (month : String)
    (hb : b ∉ (pending.enrollments.filter
      (fun e => e.studentId == sid && e.month == month)).map (fun e => e.subjectId)) :
    countTriple pending sid b month = 0 := by
  unfold countTriple
  rw [List.length_eq_zero]
  rw [List.filter_eq_nil_iff]
  intro e he hpred
  simp only [Bool.and_eq_true, beq_iff_eq] at hpred
  exact hb (List.mem_map.mpr ⟨e, List.mem_filter.mpr ⟨he, by
    simp only [Bool.and_eq_true, beq_iff_eq]
    exact ⟨hpred.1.1, hpred.2⟩⟩, hpred.1.2⟩)

theorem countTriple_same (st : St) (req : RegRequest) (a b : Nat) (c : String) :
    ∃ k, countTriple st a b c = countTriple st a b c + k
      ∧ (k = 0 ∨ (countTriple st a b c = 0 ∧ k ≤ req.subject_ids.count b)) :=
  ⟨0, (Nat.add_zero _).symm, Or.inl rfl⟩

theorem registerBody_countTriple (orig : St) (req : RegRequest) (sid s0 : Nat)
    (t ts : String) (tok : Nat → String) (pending : St)
    (hpe : pending.enrollments = orig.enrollments) (a b : Nat) (c : String) :
    ∃ k, countTriple (registerBody orig req sid s0 t ts tok pending).2 a b c
      = countTriple orig a b c + k
      ∧ (k = 0 ∨ (countTriple orig a b c = 0 ∧ k ≤ req.subject_ids.count b)) := by
  have hpc : ∀ x y (zc : String), countTriple pending x y zc = countTriple orig x y zc := by
    intro x y zc
    unfold countTriple
    rw [hpe]
  simp only [registerBody]
  split
  · exact ⟨0, by simp, Or.inl rfl⟩
  · next subj heq =>
    split
    · exact ⟨0, by simp, Or.inl rfl⟩
    · next hamt =>
      have hloop := regLoop_countTriple sid (get_setting pending "current_month" t)
        req.amount_paid ts tok
        ((pending.enrollments.filter (fun e => e.studentId == sid
          && e.month == get_setting pending "current_month" t)).map (fun e => e.subjectId))
        req.subject_ids pending [] a b c
      split
      · refine ⟨_, by rw [hloop, hpc], ?_⟩
        by_cases hcond : a = sid ∧ c = get_setting pending "current_month" t
            ∧ b ∉ (pending.enrollments.filter (fun e => e.studentId == sid
              && e.month == get_setting pending "current_month" t)).map (fun e => e.subjectId)
        · right
          refine ⟨?_, by rw [if_pos hcond]⟩
          rw [← hpc]
          rw [hcond.1, hcond.2.1]
          exact countTriple_zero_of_not_mem pending sid b _ hcond.2.2
        · left
          rw [if_neg hcond]
      · refine ⟨_, by rw [hloop, hpc], ?_⟩
        by_cases hcond : a = sid ∧ c = get_setting pending "current_month" t
            ∧ b ∉ (pending.enrollments.filter (fun e => e.studentId == sid
              && e.month == get_setting pending "current_month" t)).map (fun e => e.subjectId)
        · right
          refine ⟨?_, by rw [if_pos hcond]⟩
          rw [← hpc]
          rw [hcond.1, hcond.2.1]
          exact countTriple_zero_of_not_mem pending sid b _ hcond.2.2
        · left
          rw [if_neg hcond]

theorem registerStudent_countTriple (st : St) (req : RegRequest) (s0 : Nat)
    (t ts : String) (tok : Nat → String) (a b : Nat) (c : String) :
    ∃ k, countTriple (registerStudent st req s0 t ts tok).2 a b c
      = countTriple st a b c + k
      ∧ (k = 0 ∨ (countTriple st a b c = 0 ∧ k ≤ req.subject_ids.count b)) := by
  unfold registerStudent
  repeat' split
  all_goals first
    | exact countTriple_same st req a b c
    | (refine registerBody_countTriple st req _ _ t ts tok _ ?_ a b c; rfl)

theorem registerFields_countTriple (st : St) (req : RegRequest)
    (t ts : String) (tok : Nat → String) (a b : Nat) (c : String) :
    ∃ k, countTriple (registerFields st req t ts tok).2 a b c
      = countTriple st a b c + k
      ∧ (k = 0 ∨ (countTriple st a b c = 0 ∧ k ≤ req.subject_ids.count b)) := by
  unfold registerFields
  repeat' split
  all_goals first
    | exact countTriple_same st req a b c
    | exact registerStudent_countTriple st req _ t ts tok a b c

theorem register_countTriple (st : St) (req : RegRequest) (t ts : String)
    (tok : Nat → String) (a b : Nat) (c : String) :
    ∃ k, countTriple (register st req t ts tok).2 a b c = countTriple st a b c + k
      ∧ (k = 0 ∨ (countTriple st a b c = 0 ∧ k ≤ req.subject_ids.count b)) := by
  unfold register
  split
  · exact countTriple_same st req a b c
  · exact registerFields_countTriple st req t ts tok a b c

/-! ## The claims -/

/-- A fixed model of the `secrets.token_urlsafe(16)` stream for concrete runs. -/
def tokStream : Nat → String := fun n => "tok" ++ toString n

/-- Concrete database for the G12 three-subject scenario: three G12 subjects,
no students yet, billing month set to 2026-10. -/
def st4 : St :=
  ⟨[], [], [⟨1, "G12"⟩, ⟨2, "G12"⟩, ⟨3, "G12"⟩], [], [], [], [],
   [("current_month", "2026-10")], 1, 1⟩

def req4 (a : ℤ) : RegRequest :=
  ⟨"Thando M", "27820000001", "27830000001", "Guardian N", [1, 2, 3], "12345", 1, a⟩

theorem roundHE_750_5 : roundHalfEven ((750 : ℚ) * (5/100)) = 38 := by
  rw [show (750 : ℚ) * (5/100) = ((37 : ℤ) : ℚ) + 1/2 by norm_num]
  rw [roundHalfEven_half]
  decide

theorem fee_G12 : fee_for_grade "G12" = 250 := by decide

theorem total_due_G12_3 : total_due "G12" 3 = 712 := by
  rw [total_due_95 "G12" (by decide) 3 (by omega), fee_G12]
  rw [show ((250 : ℤ) : ℚ) * ((3:ℕ) : ℚ) * (95/100) = ((712 : ℤ) : ℚ) + 1/2 by norm_num]
  rw [roundHalfEven_half]
  decide

/-- C1: the check-in claim fails on the code as written.  The `try` body of
`attend_post` evaluates the name `literal_eval`, which the module never
imports, so `NameError` is raised and caught by `except Exception`: every
submission with a non-empty code and phone — in particular one whose code was
produced by `session_qr` for a registered, ACTIVE-enrolled student — returns
the "Bad code." page; no payload is decoded, no `NotFoundError` or
`NotActiveError` discrimination happens, and no Attendance row is ever
inserted. -/
theorem C1_attend_post_never_checks_in (st : St) (code phone : String)
    (hc : code ≠ "") (hp : phone ≠ "") :
    attend_post st code phone = (.badCode, st)
      ∧ (attend_post st code phone).2.attendance = st.attendance := by
  unfold attend_post
  rw [if_neg (by push_neg; exact ⟨hc, hp⟩)]
  exact ⟨rfl, rfl⟩

/-- Database with one registered student holding an ACTIVE G12 enrollment for
the current month, and a matching session: the C1 failing input. -/
def stTok : St :=
  ⟨[⟨1, "27820000001", some "12345"⟩], [], [⟨1, "G12"⟩],
   [⟨1, 1, 1, "2026-10", "ACTIVE", 250, "tok123"⟩], [], [⟨1, 1⟩], [],
   [("current_month", "2026-10")], 2, 2⟩

theorem C1_witness :
    attend_post stTok (session_qr_code 1 "2026-10-12") "27820000001"
      = (.badCode, stTok) :=
  (C1_attend_post_never_checks_in stTok (session_qr_code 1 "2026-10-12") "27820000001"
    (by decide) (by decide)).1

/-- Even with the import fixed, the handler would crash on every resolvable
check-in: the only assignment to `month` is the dead line after `return`
inside the except branch, so the enrollment query reads an unbound local. -/
theorem attend_resumed_unbound_month_crashes (st : St) (sessionId : Nat)
    (date phone : String)
    (hstu : (st.students.find? (fun s => s.phone == phone)).isSome = true)
    (hses : (st.sessions.find? (fun se => se.id == sessionId)).isSome = true) :
    attend_post_resumed st sessionId date phone none = (.crash, st) := by
  obtain ⟨srow, hsrow⟩ := Option.isSome_iff_exists.mp hstu
  obtain ⟨ses, hses'⟩ := Option.isSome_iff_exists.mp hses
  unfold attend_post_resumed
  rw [hsrow, hses']

/-- C3: the fee table and tiered discount rules: G12 rate 250, other
non-upgrading grades 200; one subject costs the base rate; three or more
subjects cost `round(rate × n × 0.95)` (G13: `round(350 × n × 0.90)`); one or
two subjects are charged with no discount. -/
theorem C3_fee_discount_rules (g : String) (n : ℕ) :
    (g = "G12" → fee_for_grade g = 250)
    ∧ (g ≠ "G12" → g ≠ "G13" → fee_for_grade g = 200)
    ∧ (g ≠ "G13" → n = 1 → total_due g n = fee_for_grade g)
    ∧ (g ≠ "G13" → 3 ≤ n → total_due g n
        = roundHalfEven ((fee_for_grade g : ℚ) * n * (95/100)))
    ∧ (3 ≤ n → total_due "G13" n = roundHalfEven ((350 : ℚ) * n * (90/100)))
    ∧ (n = 1 ∨ n = 2 → total_due g n = fee_for_grade g * n) := by
  refine ⟨?_, ?_, ?_, ?_, total_due_90 n, ?_⟩
  · intro h
    subst h
    decide
  · intro h1 h2
    simp [fee_for_grade, h1, h2]
  · intro _ h1
    subst h1
    rw [total_due_no_discount g 1 (by omega)]
    simp
  · intro hg h3
    exact total_due_95 g hg n h3
  · intro h
    rcases h with rfl | rfl
    · exact total_due_no_discount g 1 (by omega)
    · exact total_due_no_discount g 2 (by omega)

theorem C3_witness :
    total_due "G12" 3 = roundHalfEven ((fee_for_grade "G12" : ℚ) * (3 : ℕ) * (95/100))
      ∧ total_due "G13" 3 = roundHalfEven ((350 : ℚ) * (3 : ℕ) * (90/100)) :=
  ⟨(C3_fee_discount_rules "G12" 3).2.2.2.1 (by decide) (by omega),
   (C3_fee_discount_rules "G13" 3).2.2.2.2.1 (by omega)⟩

/-- C4: for the 3-subject G12 scenario the discount `750 × 0.05 = 37.5`
rounds half-to-even to 38, the server-side total is exactly 712, and 712 is
the only submitted amount the registrar accepts for that request: any other
amount is rejected with `PaymentMismatchError` disclosing 712. -/
theorem C4_round_half_even_accepts_712 :
    roundHalfEven ((750 : ℚ) * (5/100)) = 38
    ∧ total_due "G12" 3 = 712
    ∧ ∀ a : ℤ, (register st4 (req4 a) "2026-10" "1700000000" tokStream).1
        = if a = 712 then RegResult.submitted
            [(1, tokStream 1), (2, tokStream 2), (3, tokStream 3)]
          else .paymentError 712 := by
  refine ⟨roundHE_750_5, total_due_G12_3, ?_⟩
  intro a
  have hlen : "12345".length = 5 := by decide
  by_cases ha : a = 712 <;>
    simp [register, registerFields, registerStudent, registerBody, regLoop, get_setting,
      normalize_phone, is_valid_pin, pin_in_use, st4, req4, total_due_G12_3, ha, hlen]

/-- C9: `gen_pin` terminates whenever the collision set misses at least one
five-digit pin and the draw sequence can reach every pin, and its result is a
valid five-digit pin outside the collision set. -/
theorem C9_gen_pin_terminates (existing : List String) (draws : List Nat)
    (hmiss : ∃ n, n < 100000 ∧ pinFmt n ∉ existing)
    (hcover : ∀ n, n < 100000 → n ∈ draws) :
    ∃ p, gen_pin draws existing = some p ∧ p ∉ existing ∧ is_valid_pin p = true := by
  obtain ⟨n, hn, hnin⟩ := hmiss
  exact gen_pin_spec draws existing ⟨n, hcover n hn, hnin⟩

theorem C9_witness :
    ∃ p, gen_pin (List.range 100000) ["00000"] = some p ∧ p ∉ ["00000"]
      ∧ is_valid_pin p = true :=
  C9_gen_pin_terminates ["00000"] (List.range 100000)
    ⟨1, by omega, by decide⟩ (fun n hn => List.mem_range.mpr hn)

theorem C8_witness :
    attend_decode (session_qr_code 42 "2026-10-12") = some (42, "2026-10-12") :=
  C8_qr_roundtrip 42 "2026-10-12" (by decide)

end Ebta
namespace Ebta

/-- State for the C2 counterexample: one G12 subject, empty tables. -/
def stDup : St :=
  ⟨[], [], [⟨1, "G12"⟩], [], [], [], [], [("current_month", "2026-10")], 1, 1⟩

/-- A crafted request listing subject 1 twice (two G12 subjects cost 500,
no discount below three). -/
def reqDup : RegRequest :=
  ⟨"Sipho D", "27825550001", "27835550001", "Guardian P", [1, 1], "54321", 1, 500⟩

/-- C2 counterexample: a single registration request that lists the same
subject id twice passes the payment gate (500 = 250 × 2) and inserts **two**
Enrollment rows for the same (student, subject, month) triple — the
`existing` snapshot is taken before the loop and never updated inside it, and
the schema has no uniqueness constraint to stop the second insert. -/
theorem C2_counterexample_duplicate_subject_ids :
    (register stDup reqDup "2026-10" "0" tokStream).1
        = .submitted [(1, tokStream 1), (2, tokStream 2)]
      ∧ countTriple (register stDup reqDup "2026-10" "0" tokStream).2 1 1 "2026-10" = 2
      ∧ ¬ uniqueTriples (register stDup reqDup "2026-10" "0" tokStream).2 := by
  refine ⟨by decide, by decide, fun h => absurd (h 1 1 "2026-10") (by decide)⟩

/-- C2 (amended): after every sequence of registration requests **whose
subject lists contain no repeated id**, at most one Enrollment row exists per
(student, subject, month); and any triple that already has a row keeps its
exact row count through any further `register` call, so re-registering an
already-enrolled subject is a no-op for that subject.  (A single request
repeating a subject id inserts one row per occurrence, as the counterexample
shows.) -/
theorem C2_amended_register_dedup :
    (∀ (st : St) (reqs : List (RegRequest × String × String × (Nat → String))),
        uniqueTriples st →
        (∀ r ∈ reqs, (r.1).subject_ids.Nodup) →
        uniqueTriples (reqs.foldl (fun s r => (register s r.1 r.2.1 r.2.2.1 r.2.2.2).2) st))
    ∧ (∀ (st : St) (req : RegRequest) (t ts : String) (tok : Nat → String)
        (a b : Nat) (c : String), 1 ≤ countTriple st a b c →
        countTriple (register st req t ts tok).2 a b c = countTriple st a b c) := by
  have hstep : ∀ (st : St) (req : RegRequest) (t ts : String) (tok : Nat → String),
      uniqueTriples st → req.subject_ids.Nodup →
      uniqueTriples (register st req t ts tok).2 := by
    intro st req t ts tok hu hnd a b c
    obtain ⟨k, hk, hor⟩ := register_countTriple st req t ts tok a b c
    rcases hor with rfl | ⟨h0, hle⟩
    · rw [hk]
      simpa using hu a b c
    · rw [hk, h0]
      have hcount : req.subject_ids.count b ≤ 1 :=
        List.nodup_iff_count_le_one.mp hnd b
      omega
  constructor
  · intro st reqs hu hnd
    induction reqs generalizing st with
    | nil => exact hu
    | cons r rs ih =>
      exact ih _ (hstep _ _ _ _ _ hu (hnd r (by simp)))
        (fun x hx => hnd x (by simp [hx]))
  · intro st req t ts tok a b c h1
    obtain ⟨k, hk, hor⟩ := register_countTriple st req t ts tok a b c
    rcases hor with rfl | ⟨h0, _⟩
    · omega
    · omega

end Ebta
namespace Ebta

theorem C2_witness :
    uniqueTriples ([(⟨"Ayo K", "27821110001", "27831110001", "Guardian Q",
        [1], "67890", 1, 250⟩, "2026-10", "0", tokStream)].foldl
      (fun s r => (register s r.1 r.2.1 r.2.2.1 r.2.2.2).2) stDup) :=
  C2_amended_register_dedup.1 stDup _
    (fun a b c => by simp [countTriple, stDup])
    (fun r hr => by
      simp only [List.mem_singleton] at hr
      subst hr
      decide)

/-- C5 counterexample: with a stored, non-empty token `"tok123"`, a status
request that supplies the token parameter with the empty-string value — a
supplied token not equal to the stored one — is granted the status view
instead of failing with `ForbiddenError` (`if token and token != ...` treats
`''` as falsy). -/
theorem C5_counterexample_empty_token :
    status stTok 1 (some "") = .ok 1
      ∧ ("" : String) ≠ "tok123"
      ∧ (stTok.enrollments.find? (fun e => e.id == 1)).map (fun e => e.statusToken)
          = some "tok123" := by
  refine ⟨by decide, by decide, by decide⟩

/-- C5 (amended): a status request whose token equals the stored token
returns the view; a request supplying a **non-empty** token different from
the stored one fails with `ForbiddenError`; a request with no token at all
(and likewise one with the empty-string token) is granted unconditionally. -/
theorem C5_amended_status_gate (st : St) (id : Nat) (e : Enrollment)
    (he : st.enrollments.find? (fun x => x.id == id) = some e)
    (hstu : (st.students.find? (fun s => s.id == e.studentId)).isSome = true)
    (hsub : (st.subjects.find? (fun sub => sub.id == e.subjectId)).isSome = true) :
    status st id (some e.statusToken) = .ok id
    ∧ (∀ t, t ≠ "" → t ≠ e.statusToken → status st id (some t) = .forbidden)
    ∧ status st id none = .ok id := by
  obtain ⟨stu, hstu'⟩ := Option.isSome_iff_exists.mp hstu
  obtain ⟨sub, hsub'⟩ := Option.isSome_iff_exists.mp hsub
  refine ⟨?_, ?_, ?_⟩
  · simp [status, he, hstu', hsub']
  · intro t ht1 ht2
    simp only [status, he, hstu', hsub']
    rw [if_pos ⟨ht1, ht2⟩]
  · simp [status, he, hstu', hsub']

theorem C5_amended_witness :
    status stTok 1 (some "wrong") = .forbidden ∧ status stTok 1 none = .ok 1 :=
  have h := C5_amended_status_gate stTok 1 ⟨1, 1, 1, "2026-10", "ACTIVE", 250, "tok123"⟩
    (by decide) (by decide) (by decide)
  ⟨h.2.1 "wrong" (by decide) (by decide), h.2.2⟩

/-- C10: the status gate rejects exactly when the supplied token is non-empty
and differs from the stored token — so `ForbiddenError` iff a non-empty,
non-matching token — and the empty-string token in particular is granted the
status view. -/
theorem C10_token_gate_iff (st : St) (id : Nat) (e : Enrollment) (token : Option String)
    (he : st.enrollments.find? (fun x => x.id == id) = some e)
    (hstu : (st.students.find? (fun s => s.id == e.studentId)).isSome = true)
    (hsub : (st.subjects.find? (fun sub => sub.id == e.subjectId)).isSome = true) :
    (status st id token = .forbidden
      ↔ ∃ t, token = some t ∧ t ≠ "" ∧ t ≠ e.statusToken)
    ∧ status st id (some "") = .ok id := by
  obtain ⟨stu, hstu'⟩ := Option.isSome_iff_exists.mp hstu
  obtain ⟨sub, hsub'⟩ := Option.isSome_iff_exists.mp hsub
  constructor
  · cases token with
    | none =>
      simp [status, he, hstu', hsub']
    | some t =>
      simp only [status, he, hstu', hsub']
      by_cases hcond : t ≠ "" ∧ t ≠ e.statusToken
      · rw [if_pos hcond]
        simp [hcond.1, hcond.2]
      · rw [if_neg hcond]
        push_neg at hcond
        constructor
        · intro h
          cases h
        · rintro ⟨t', ht', h1, h2⟩
          cases ht'
          exact absurd (hcond h1) h2
  · simp [status, he, hstu', hsub']

theorem C10_witness :
    status stTok 1 (some "xyz") = .forbidden ∧ status stTok 1 (some "") = .ok 1 :=
  have h := C10_token_gate_iff stTok 1 ⟨1, 1, 1, "2026-10", "ACTIVE", 250, "tok123"⟩
    (some "xyz") (by decide) (by decide) (by decide)
  ⟨h.1.mpr ⟨"xyz", rfl, by decide, by decide⟩, h.2⟩

end Ebta
namespace Ebta

/-- C6: a registration that passes every earlier check but whose submitted
amount differs from the server-computed total — in either direction, by any
nonzero value — is rejected with the required amount disclosed, and the
returned state is the original one: no Enrollment and no Payment row is
committed (the handler closes the connection without committing, rolling the
transaction back). -/
theorem C6_payment_mismatch_rejected (st : St) (req : RegRequest) (todayYM ts : String)
    (tok : Nat → String) (s0 : Nat) (rest : List Nat) (subj : Subject)
    (hopen : get_setting st "enrollment_open" "1" = "1")
    (hsubs : req.subject_ids = s0 :: rest)
    (hname : req.full_name ≠ "") (hphone : normalize_phone req.phone ≠ "")
    (hguard : req.guardian ≠ "") (hgname : req.guardian_name ≠ "")
    (hpinne : req.pin ≠ "")
    (hpin : is_valid_pin req.pin = true)
    (hpop1 : 1 ≤ req.popCount) (hpop2 : req.popCount ≤ 2)
    (hstud : (∃ srow, st.students.find? (fun s => s.phone == normalize_phone req.phone)
                = some srow ∧ srow.pin = some req.pin)
          ∨ (st.students.find? (fun s => s.phone == normalize_phone req.phone) = none
              ∧ pin_in_use st req.pin = false))
    (hsubj : st.subjects.find? (fun sub => sub.id == s0) = some subj)
    (hamt : req.amount_paid ≠ total_due subj.grade req.subject_ids.length) :
    register st req todayYM ts tok
      = (.paymentError (total_due subj.grade req.subject_ids.length), st) := by
  unfold register
  rw [if_neg (by simp [hopen])]
  unfold registerFields
  split
  · next heq =>
    rw [hsubs] at heq
    simp at heq
  · next s0x restx heq =>
    rw [hsubs] at heq
    injection heq with h1 h2
    subst h1
    subst h2
    rw [if_neg (by push_neg; exact ⟨hname, hphone, hguard, hgname, hpinne⟩)]
    rw [if_neg (by simp [hpin])]
    rw [if_neg (by omega)]
    unfold registerStudent
    rcases hstud with ⟨srow, hfind, hsrowpin⟩ | ⟨hfind, hnuse⟩
    · split
      · next srowx heq2 =>
        have hse := Option.some.inj (hfind.symm.trans heq2)
        subst hse
        rw [if_neg (by simp [hsrowpin])]
        simp only [registerBody]
        split
        · next heq3 =>
          rw [hsubj] at heq3
          cases heq3
        · next subjx heq3 =>
          have hsu := Option.some.inj (hsubj.symm.trans heq3)
          subst hsu
          rw [if_pos hamt]
      · next heq2 =>
        rw [hfind] at heq2
        cases heq2
    · split
      · next srowx heq2 =>
        rw [hfind] at heq2
        cases heq2
      · next heq2 =>
        rw [if_neg (by simp [hnuse])]
        split
        · next heq3 =>
          rw [hsubj] at heq3
          cases heq3
        · next subjx heq3 =>
          have hsu := Option.some.inj (hsubj.symm.trans heq3)
          subst hsu
          simp only [registerBody]
          split
          · next heq4 =>
            rw [show (({ st with
                students := st.students ++
                  [⟨st.nextStudentId, normalize_phone req.phone, some req.pin⟩],
                nextStudentId := st.nextStudentId + 1 } : St)).subjects
              = st.subjects from rfl] at heq4
            rw [hsubj] at heq4
            cases heq4
          · next subjy heq4 =>
            have hsu2 : subjy = subj := by
              rw [show (({ st with
                  students := st.students ++
                    [⟨st.nextStudentId, normalize_phone req.phone, some req.pin⟩],
                  nextStudentId := st.nextStudentId + 1 } : St)).subjects
                = st.subjects from rfl] at heq4
              exact (Option.some.inj (hsubj.symm.trans heq4)).symm
            subst hsu2
            rw [if_pos hamt]

end Ebta
namespace Ebta

theorem C6_witness :
    register st4 (req4 999) "2026-10" "1700000000" tokStream
      = (.paymentError (total_due "G12" 3), st4) :=
  C6_payment_mismatch_rejected st4 (req4 999) "2026-10" "1700000000" tokStream
    1 [2, 3] ⟨1, "G12"⟩ (by decide) rfl (by decide) (by decide) (by decide)
    (by decide) (by decide) (by decide) (by decide) (by decide)
    (Or.inr ⟨by decide, by decide⟩) (by decide)
    (by rw [show (req4 999).amount_paid = 999 from rfl]; rw [show (req4 999).subject_ids.length = 3 from rfl]; rw [total_due_G12_3]; decide)

/-- A pending enrollment owned by a student without a pin, for the C7 run. -/
def stApp : St :=
  ⟨[⟨1, "27820000001", none⟩], [], [⟨1, "G12"⟩],
   [⟨1, 1, 1, "2026-10", "PENDING", 250, "tokA"⟩], [], [], [],
   [("current_month", "2026-10")], 2, 2⟩

theorem C7_witness :
    ∃ st1, approve stApp 1 [7] = some st1
      ∧ enrollmentStatusOf st1 1 = some "ACTIVE"
      ∧ ((none : Option String) ≠ none → (none : Option String) ≠ some ""
          → st1.students = stApp.students)
      ∧ (((none : Option String) = none ∨ (none : Option String) = some "") →
          ∃ p, pinOf st1 1 = some (some p) ∧ is_valid_pin p = true ∧ p ∉ pinsOf stApp)
      ∧ approve st1 1 [9] = some st1 :=
  C7_approve_idempotent stApp 1 [7] [9]
    ⟨1, 1, 1, "2026-10", "PENDING", 250, "tokA"⟩ ⟨1, "27820000001", none⟩
    (by decide) (by decide) ⟨7, by decide, by decide⟩

end Ebta
